import Mathlib

/-
Verification of the interpreter orchestration core in
src/crates/interpreter/src/interpreter.rs (revm interpreter crate).

The interpreter state and its operations (`new`, `current_opcode`,
`program_counter`, `step`, `run`, `run_inspect`, `return_value`) are
translated from that file.  Collaborators that live outside the provided
source tree (the Contract record, Stack, Gas, SharedMemory, the Host
inspection hooks and the instruction dispatcher `eval`) are modelled from
the specification, as marked on each definition.

Modelling conventions:
  - the raw `*const u8` instruction pointer is modelled as an absolute
    address (a natural number) into the bytecode allocation, which starts
    at address `contract.base`; dereferencing reads the bytecode list at
    offset `pointer - base`;
  - `usize` values are natural numbers, with the `usize::MAX` sentinel the
    explicit constant `USIZE_MAX`;
  - the `Rc<RefCell<SharedMemory>>` handle is modelled by threading the
    `SharedMemory` value explicitly: `return_value` yields the copied
    bytes together with the memory state after the free;
  - the possibly non-terminating `while` loops of `run` / `run_inspect`
    are given fuel-indexed semantics returning `none` when the fuel is
    exhausted before the halting signal leaves `Continue`.
-/

namespace Revm

/-- A byte of bytecode, input or memory. -/
abbrev Byte := Nat

/-- Largest representable `usize` value on the 64-bit targets the
interpreter runs on; `return_range.start = USIZE_MAX` is the empty-return
sentinel checked by `return_value`. -/
def USIZE_MAX : Nat := 2 ^ 64 - 1

/-- Halting signal (`InstructionResult`): `Continue` is the sole
non-terminal state; the remaining constructors are the terminal variants
named by the error-handling section of the specification. -/
inductive InstructionResult where
  | Continue
  | Stop
  | Return
  | Revert
  | SelfDestruct
  | CallTooDeep
  | OutOfGas
  | OpcodeNotFound
  | InvalidJump
  | StackUnderflow
  | StackOverflow
  | StateChangeDuringStaticCall
  | FatalExternalError
deriving DecidableEq, Repr

/-- Rust `core::ops::Range<usize>`; the field `end` is rendered `stop`
because `end` is reserved in Lean.  `Range::default()` is `⟨0, 0⟩`. -/
structure RangeUsize where
  start : Nat
  stop : Nat
deriving DecidableEq, Repr

/-- Modelled from the spec: the Contract Record collaborator (its source
file is not provided): an immutable bundle of the validated, padded
bytecode and the call input data.  `base` is the address at which the
bytecode allocation starts, so the raw instruction pointer can be modelled
as an absolute address. -/
structure Contract where
  base : Nat
  bytecode : List Byte
  input : List Byte
deriving DecidableEq, Repr

/-- Modelled from the spec: the fixed-capacity Value Stack collaborator
(its source file is not provided). -/
structure Stack where
  data : List Nat
deriving DecidableEq, Repr

/-- Stack capacity in machine words. -/
def STACK_LIMIT : Nat := 1024

/-- Modelled from the spec: `Stack::new()` is the empty stack. -/
def Stack.new : Stack := ⟨[]⟩

/-- Modelled from the spec: the Gas Meter collaborator tracks a remaining
budget and a refund counter (its source file is not provided). -/
structure Gas where
  remaining : Nat
  refunded : Int
deriving DecidableEq, Repr

/-- Modelled from the spec: `Gas::new(gas_limit)` initializes the budget
to `gas_limit` with no refunds. -/
def Gas.new (gas_limit : Nat) : Gas := ⟨gas_limit, 0⟩

/-- Modelled from the spec: the Shared Memory collaborator (its source
file is not provided): one growable byte buffer shared across the call
tree; `checkpoint` is the current frame's entry point — the logical
high-water mark the buffer is returned to when the frame's region is
freed. -/
structure SharedMemory where
  data : List Byte
  checkpoint : Nat
deriving DecidableEq, Repr

/-- Modelled from the spec: `read(offset, len) -> bytes`, the slice of
`len` bytes starting at `offset`. -/
def SharedMemory.get_slice (m : SharedMemory) (offset len : Nat) : List Byte :=
  (m.data.drop offset).take len

/-- Modelled from the spec: the "free current frame's region" operation
returns the buffer's logical high-water mark to the frame's entry point. -/
def SharedMemory.free_context_memory (m : SharedMemory) : SharedMemory :=
  { data := m.data.take m.checkpoint, checkpoint := m.checkpoint }

/-- Maximum nesting depth of call frames. -/
def CALL_STACK_LIMIT : Nat := 1024

/-- EIP-170 contract code size limit. -/
def MAX_CODE_SIZE : Nat := 0x6000

/-- EIP-3860 initcode size limit. -/
def MAX_INITCODE_SIZE : Nat := 2 * MAX_CODE_SIZE

/-- One call frame's interpreter state, field for field the `Interpreter`
struct of interpreter.rs under the modelling conventions above. -/
structure Interpreter where
  instruction_pointer : Nat
  instruction_result : InstructionResult
  gas : Gas
  shared_memory : SharedMemory
  stack : Stack
  return_data_buffer : List Byte
  return_range : RangeUsize
  is_static : Bool
  contract : Contract
deriving DecidableEq, Repr

/-- `Interpreter::new`: bind the instruction pointer to the start of the
contract's bytecode (`contract.bytecode.as_ptr()`, i.e. address `base`),
default (`0..0`) return range, fresh empty stack, a handle to the given
shared memory, empty return-data buffer, `Continue` signal, and a gas
meter holding `gas_limit`.  A total function: construction cannot fail. -/
def Interpreter.new (contract : Contract) (gas_limit : Nat) (is_static : Bool)
    (shared_memory : SharedMemory) : Interpreter :=
  { instruction_pointer := contract.base,
    return_range := ⟨0, 0⟩,
    stack := Stack.new,
    shared_memory := shared_memory,
    return_data_buffer := [],
    contract := contract,
    instruction_result := InstructionResult.Continue,
    is_static := is_static,
    gas := Gas.new gas_limit }

/-- `Interpreter::current_opcode`: dereference the raw instruction
pointer, i.e. read the bytecode allocation at offset `pointer - base`. -/
def Interpreter.current_opcode (i : Interpreter) : Byte :=
  i.contract.bytecode.getD (i.instruction_pointer - i.contract.base) 0

/-- `Interpreter::program_counter`: `offset_from` of the instruction
pointer and the bytecode base pointer, cast to `usize`. -/
def Interpreter.program_counter (i : Interpreter) : Nat :=
  i.instruction_pointer - i.contract.base

/-- Modelled from the spec: the Instruction Dispatcher collaborator
`eval(opcode, interpreter, host)` mutates the interpreter and the host. -/
abbrev Dispatcher (H : Type) := Byte → Interpreter → H → Interpreter × H

/-- Modelled from the spec: the Host pre-step inspection hook
`pre_step(interpreter) -> signal` (the `Host::step` callback). -/
abbrev PreStepHook (H : Type) := H → Interpreter → InstructionResult

/-- Modelled from the spec: the Host post-step inspection hook
`post_step(interpreter, signal) -> signal` (the `Host::step_end`
callback). -/
abbrev PostStepHook (H : Type) := H → Interpreter → InstructionResult → InstructionResult

/-- `Interpreter::step`: read the byte at the current instruction pointer
as the opcode, advance the pointer by one byte, then dispatch that opcode
on the advanced state. -/
def Interpreter.step {H : Type} ( eval : Dispatcher H) (i : Interpreter) (host : H) :
    Interpreter × H :=
  eval i.current_opcode { i with instruction_pointer := i.instruction_pointer + 1 } host

/-- `Interpreter::run`, fuel-indexed: call `step` while the halting signal
is `Continue`, and return the terminal signal together with the final
interpreter and host states; `none` when the fuel runs out with the
signal still `Continue`. -/
def Interpreter.runFuel {H : Type} ( eval : Dispatcher H) :
    Nat → Interpreter → H → Option (InstructionResult × Interpreter × H)
  | 0, i, host =>
    if i.instruction_result = InstructionResult.Continue then none
    else some (i.instruction_result, i, host)
  | fuel + 1, i, host =>
    if i.instruction_result = InstructionResult.Continue then
      Interpreter.runFuel eval fuel (i.step eval host).1 (i.step eval host).2
    else some (i.instruction_result, i, host)

/-- `Interpreter::run_inspect`, fuel-indexed: each iteration first calls
the pre-step hook and returns its signal at once when it is not
`Continue`, then steps, then calls the post-step hook with the fresh
signal and returns the hook's signal at once when it is not `Continue`. -/
def Interpreter.runInspectFuel {H : Type} ( eval : Dispatcher H)
    (pre : PreStepHook H) (post : PostStepHook H) :
    Nat → Interpreter → H → Option (InstructionResult × Interpreter × H)
  | 0, i, host =>
    if i.instruction_result = InstructionResult.Continue then none
    else some (i.instruction_result, i, host)
  | fuel + 1, i, host =>
    if i.instruction_result = InstructionResult.Continue then
      if pre host i ≠ InstructionResult.Continue then some (pre host i, i, host)
      else
        let s := i.step eval host
        if post s.2 s.1 s.1.instruction_result ≠ InstructionResult.Continue then
          some (post s.2 s.1 s.1.instruction_result, s.1, s.2)
        else Interpreter.runInspectFuel eval pre post fuel s.1 s.2
    else some (i.instruction_result, i, host)

/-- `Interpreter::return_value`: when `return_range.start` is the
`usize::MAX` sentinel the returned payload is empty, otherwise it is the
copy of the slice `[start, end)` of shared memory; either way the current
frame's region of shared memory is freed.  Yields the payload together
with the shared memory state after the free. -/
def Interpreter.return_value (i : Interpreter) : List Byte × SharedMemory :=
  let bytes :=
    if i.return_range.start = USIZE_MAX then []
    else i.shared_memory.get_slice i.return_range.start
      (i.return_range.stop - i.return_range.start)
  (bytes, i.shared_memory.free_context_memory)

/-! Concrete sample data used by the witness theorems. -/

/-- A dispatcher that halts at once: every dispatched opcode sets the
halting signal to `Stop` and leaves the host alone. -/
def evalStop : Dispatcher Unit :=
  fun _ i host => ({ i with instruction_result := InstructionResult.Stop }, host)

/-- The trivial pre-step hook: always `Continue`. -/
def preContinue : PreStepHook Unit := fun _ _ => InstructionResult.Continue

/-- The trivial post-step hook: always `Continue`. -/
def postContinue : PostStepHook Unit := fun _ _ _ => InstructionResult.Continue

/-- A pre-step hook that forces early termination with `Stop`. -/
def preStop : PreStepHook Unit := fun _ _ => InstructionResult.Stop

/-- A sample contract: two STOP bytes at base address 0. -/
def contract0 : Contract := { base := 0, bytecode := [0, 0], input := [] }

/-- A sample empty shared memory. -/
def mem0 : SharedMemory := { data := [], checkpoint := 0 }

/-- A freshly constructed sample interpreter. -/
def interp0 : Interpreter := Interpreter.new contract0 10 false mem0

/-- A sample shared memory with three bytes and frame entry point 1. -/
def memW : SharedMemory := { data := [7, 8, 9], checkpoint := 1 }

/-- A sample interpreter whose return range `1..3` lies inside its frame's
region of `memW`. -/
def interpW : Interpreter :=
  { Interpreter.new contract0 10 false memW with return_range := ⟨1, 3⟩ }

/-- A sample interpreter whose return range carries the `usize::MAX`
empty-return sentinel over the non-empty memory `memW`. -/
def interpS : Interpreter :=
  { Interpreter.new contract0 10 false memW with
      return_range := ⟨USIZE_MAX, USIZE_MAX⟩ }

/-! Claim theorems. -/

/-- C2: `step` reads the byte at the current instruction pointer as the
opcode, advances the instruction pointer by exactly one byte, and only
then invokes the dispatcher with that opcode, this interpreter, and the
host: the dispatcher observes the already-advanced pointer. -/
theorem step_advances_before_dispatch {H : Type} ( eval : Dispatcher H)
    (i : Interpreter) (host : H) :
    i.step eval host =
      eval (i.contract.bytecode.getD (i.instruction_pointer - i.contract.base) 0)
        { i with instruction_pointer := i.instruction_pointer + 1 } host := rfl

/-- C7: `return_value` frees this frame's region of shared memory exactly
once, unconditionally — the resulting memory is one application of
`free_context_memory` to the original memory in both the sentinel branch
and the copy branch — and only after the copy: the returned bytes are read
from the original, pre-free memory. -/
theorem return_value_frees_once_after_copy (i : Interpreter) :
    (i.return_value).2 = i.shared_memory.free_context_memory ∧
    (i.return_value).1 =
      (if i.return_range.start = USIZE_MAX then []
       else i.shared_memory.get_slice i.return_range.start
         (i.return_range.stop - i.return_range.start)) :=
  ⟨rfl, rfl⟩

/-- C8: `new` is a total function (construction cannot fail) and yields an
interpreter whose instruction pointer is at the start of the contract's
bytecode, whose gas meter holds `gas_limit`, whose stack is empty, and
whose halting signal is `Continue`. -/
theorem new_initializes (contract : Contract) (gas_limit : Nat) (is_static : Bool)
    (shared_memory : SharedMemory) :
    (Interpreter.new contract gas_limit is_static shared_memory).instruction_pointer
        = contract.base ∧
    (Interpreter.new contract gas_limit is_static shared_memory).gas.remaining
        = gas_limit ∧
    (Interpreter.new contract gas_limit is_static shared_memory).stack.data = [] ∧
    (Interpreter.new contract gas_limit is_static shared_memory).instruction_result
        = InstructionResult.Continue ∧
    (Interpreter.new contract gas_limit is_static shared_memory).shared_memory
        = shared_memory ∧
    (Interpreter.new contract gas_limit is_static shared_memory).is_static = is_static :=
  ⟨rfl, rfl, rfl, rfl, rfl, rfl⟩

/-- C9: when the instruction pointer lies within the contract's own
bytecode allocation `[base, base + len]`, `program_counter` (the pointer
subtraction) returns the zero-based offset of the pointer from the start
of the bytecode: `pointer = base + program_counter`, with the offset at
most the bytecode length.  As a function of the state it modifies
nothing. -/
theorem program_counter_offset (i : Interpreter)
    (h1 : i.contract.base ≤ i.instruction_pointer)
    (h2 : i.instruction_pointer ≤ i.contract.base + i.contract.bytecode.length) :
    i.instruction_pointer = i.contract.base + i.program_counter ∧
    i.program_counter ≤ i.contract.bytecode.length := by
  unfold Interpreter.program_counter
  omega

/-- C9 witness: the bound and the offset equation at the sample fresh
interpreter. -/
theorem program_counter_offset_witness :
    interp0.instruction_pointer = interp0.contract.base + interp0.program_counter ∧
    interp0.program_counter ≤ interp0.contract.bytecode.length :=
  program_counter_offset interp0 (by decide) (by decide)

/-- C10: a freshly constructed interpreter has `return_range = 0..0`,
whose start is not the `usize::MAX` empty sentinel, so `return_value` on a
fresh interpreter takes the copy branch with a zero-length slice and still
yields a zero-length buffer. -/
theorem new_return_range_not_sentinel (contract : Contract) (gas_limit : Nat)
    (is_static : Bool) (shared_memory : SharedMemory) :
    (Interpreter.new contract gas_limit is_static shared_memory).return_range
        = ⟨0, 0⟩ ∧
    (Interpreter.new contract gas_limit is_static shared_memory).return_range.start
        ≠ USIZE_MAX ∧
    ((Interpreter.new contract gas_limit is_static shared_memory).return_value).1
        = [] := by
  refine ⟨rfl, ?_, ?_⟩
  · simp [Interpreter.new, USIZE_MAX]
  · simp [Interpreter.return_value, Interpreter.new, USIZE_MAX, SharedMemory.get_slice]

/-- Helper: once the halting signal is off `Continue`, `runFuel` returns
it at once, whatever the fuel. -/
theorem runFuel_halted {H : Type} ( eval : Dispatcher H) (fuel : Nat)
    (i : Interpreter) (host : H)
    (h : i.instruction_result ≠ InstructionResult.Continue) :
    Interpreter.runFuel eval fuel i host = some (i.instruction_result, i, host) := by
  cases fuel <;> simp [Interpreter.runFuel, h]

/-- C1: with both inspection hooks fixed to `Continue`, `run_inspect`
computes, fuel for fuel, exactly what `run` computes: the same terminal
halting signal, the same final interpreter state (hence the same
return-data bytes) and the same final host state, diverging exactly when
`run` diverges. -/
theorem run_inspect_equiv_run {H : Type} ( eval : Dispatcher H)
    (pre : PreStepHook H) (post : PostStepHook H)
    (hpre : ∀ host i, pre host i = InstructionResult.Continue)
    (hpost : ∀ host i r, post host i r = InstructionResult.Continue)
    (fuel : Nat) (i : Interpreter) (host : H) :
    Interpreter.runInspectFuel eval pre post fuel i host =
      Interpreter.runFuel eval fuel i host := by
  induction fuel generalizing i host with
  | zero => rfl
  | succ n ih =>
    by_cases h : i.instruction_result = InstructionResult.Continue
    · simp [Interpreter.runInspectFuel, Interpreter.runFuel, h, hpre, hpost, ih]
    · simp [Interpreter.runInspectFuel, Interpreter.runFuel, h]

/-- C1 witness: the equivalence at the sample interpreter with the
trivial hooks and the halting dispatcher. -/
theorem run_inspect_equiv_run_witness :
    Interpreter.runInspectFuel evalStop preContinue postContinue 2 interp0 () =
      Interpreter.runFuel evalStop 2 interp0 () :=
  run_inspect_equiv_run evalStop preContinue postContinue
    (fun _ _ => rfl) (fun _ _ _ => rfl) 2 interp0 ()

/-- C3: on a padded program the dispatcher collaborator guarantees that
every dispatched step either moves the halting signal off `Continue` or
strictly decreases the remaining gas; under that guarantee `run`
terminates — `gas + 1` units of fuel always suffice, so the loop cannot
iterate forever on `Continue`. -/
theorem run_terminates {H : Type} ( eval : Dispatcher H)
    (hstep : ∀ (i : Interpreter) (host : H),
      i.instruction_result = InstructionResult.Continue →
      (i.step eval host).1.instruction_result ≠ InstructionResult.Continue ∨
        (i.step eval host).1.gas.remaining < i.gas.remaining)
    (i : Interpreter) (host : H) :
    (Interpreter.runFuel eval (i.gas.remaining + 1) i host).isSome := by
  suffices hgen : ∀ (n : Nat) (j : Interpreter) (h : H), j.gas.remaining ≤ n →
      (Interpreter.runFuel eval (n + 1) j h).isSome by
    exact hgen i.gas.remaining i host le_rfl
  intro n
  induction n with
  | zero =>
    intro j h hle
    by_cases hc : j.instruction_result = InstructionResult.Continue
    · rcases hstep j h hc with hh | hlt
      · have hun : Interpreter.runFuel eval 1 j h =
            Interpreter.runFuel eval 0 (j.step eval h).1 (j.step eval h).2 := by
          simp [Interpreter.runFuel, hc]
        rw [hun, runFuel_halted eval 0 _ _ hh]
        simp
      · omega
    · rw [runFuel_halted eval 1 j h hc]
      simp
  | succ n ih =>
    intro j h hle
    by_cases hc : j.instruction_result = InstructionResult.Continue
    · have hun : Interpreter.runFuel eval (n + 1 + 1) j h =
          Interpreter.runFuel eval (n + 1) (j.step eval h).1 (j.step eval h).2 := by
        simp [Interpreter.runFuel, hc]
      rcases hstep j h hc with hh | hlt
      · rw [hun, runFuel_halted eval (n + 1) _ _ hh]
        simp
      · rw [hun]
        exact ih (j.step eval h).1 (j.step eval h).2 (by omega)
    · rw [runFuel_halted eval (n + 1 + 1) j h hc]
      simp

/-- C3 witness: termination at the sample interpreter under the halting
dispatcher, whose every step leaves `Continue`. -/
theorem run_terminates_witness :
    (Interpreter.runFuel evalStop (interp0.gas.remaining + 1) interp0 ()).isSome :=
  run_terminates evalStop
    (fun i host _ => Or.inl (by simp [Interpreter.step, evalStop])) interp0 ()

/-- C4: when `return_range.start` is the `usize::MAX` sentinel,
`return_value` yields a zero-length buffer regardless of shared-memory
contents — no condition on the memory or on `return_range.stop`;
otherwise it copies the byte slice `[start, end)` out of shared memory,
and when the range lies within the current memory that copy has exactly
length `end - start`. -/
theorem return_value_spec (i : Interpreter) :
    (i.return_range.start = USIZE_MAX → (i.return_value).1 = []) ∧
    (i.return_range.start ≠ USIZE_MAX →
      (i.return_value).1 =
        (i.shared_memory.data.drop i.return_range.start).take
          (i.return_range.stop - i.return_range.start) ∧
      (i.return_range.start ≤ i.return_range.stop →
        i.return_range.stop ≤ i.shared_memory.data.length →
        (i.return_value).1.length =
          i.return_range.stop - i.return_range.start)) := by
  refine ⟨fun hs => ?_, fun hne => ⟨?_, fun h1 h2 => ?_⟩⟩
  · simp [Interpreter.return_value, hs]
  · simp [Interpreter.return_value, SharedMemory.get_slice, if_neg hne]
  · simp only [Interpreter.return_value, SharedMemory.get_slice, if_neg hne,
      List.length_take, List.length_drop]
    omega

/-- C4 witness: both branches at concrete states over the memory
`[7, 8, 9]` — the sentinel interpreter yields the empty buffer, and the
interpreter with range `1..3` copies exactly the two bytes `[8, 9]`. -/
theorem return_value_spec_witness :
    (interpS.return_value).1 = [] ∧
    ((interpW.return_value).1 =
      (interpW.shared_memory.data.drop interpW.return_range.start).take
        (interpW.return_range.stop - interpW.return_range.start) ∧
     (interpW.return_value).1.length =
       interpW.return_range.stop - interpW.return_range.start) :=
  ⟨(return_value_spec interpS).1 (by decide),
   ((return_value_spec interpW).2 (by decide)).1,
   ((return_value_spec interpW).2 (by decide)).2 (by decide) (by decide)⟩

/-- C5: calling `return_value` twice in sequence is safe.  When the
return range designates this frame's own region (its start is at or past
the frame's entry point), the second call — which observes the post-free
memory — yields an empty buffer without error, and the free operation is
idempotent: the memory after the second call equals the memory after the
first. -/
theorem return_value_twice_empty (i : Interpreter)
    (h : i.shared_memory.checkpoint ≤ i.return_range.start) :
    (({ i with shared_memory := (i.return_value).2 }).return_value).1 = [] ∧
    (({ i with shared_memory := (i.return_value).2 }).return_value).2 =
      (i.return_value).2 := by
  constructor
  · by_cases hs : i.return_range.start = USIZE_MAX
    · simp [Interpreter.return_value, hs]
    · have hlen : (i.shared_memory.data.take i.shared_memory.checkpoint).length ≤
          i.return_range.start := by
        rw [List.length_take]
        omega
      simp [Interpreter.return_value, SharedMemory.free_context_memory,
        SharedMemory.get_slice, hs, List.drop_eq_nil_of_le hlen]
  · simp [Interpreter.return_value, SharedMemory.free_context_memory, List.take_take]

/-- C5 witness: both calls at the sample interpreter with frame entry
point 1 and return range `1..3`. -/
theorem return_value_twice_empty_witness :
    (({ interpW with shared_memory := (interpW.return_value).2 }).return_value).1 = [] ∧
    (({ interpW with shared_memory := (interpW.return_value).2 }).return_value).2 =
      (interpW.return_value).2 :=
  return_value_twice_empty interpW (by decide)

/-- C6: in `run_inspect`, when the loop is live, a non-`Continue` signal
from the pre-step hook stops the loop at once with that signal and the
pending opcode is not executed at all (the interpreter and host are
unchanged); and when the pre-step hook continues but the post-step hook
returns a non-`Continue` signal, the loop stops at once with the
post-step hook's signal instead of the dispatcher's outcome. -/
theorem run_inspect_hook_stops {H : Type} ( eval : Dispatcher H)
    (pre : PreStepHook H) (post : PostStepHook H)
    (fuel : Nat) (i : Interpreter) (host : H)
    (hc : i.instruction_result = InstructionResult.Continue) :
    (pre host i ≠ InstructionResult.Continue →
      Interpreter.runInspectFuel eval pre post (fuel + 1) i host =
        some (pre host i, i, host)) ∧
    (pre host i = InstructionResult.Continue →
      post (i.step eval host).2 (i.step eval host).1
          (i.step eval host).1.instruction_result ≠ InstructionResult.Continue →
      Interpreter.runInspectFuel eval pre post (fuel + 1) i host =
        some (post (i.step eval host).2 (i.step eval host).1
                (i.step eval host).1.instruction_result,
              (i.step eval host).1, (i.step eval host).2)) := by
  constructor
  · intro hne
    simp [Interpreter.runInspectFuel, hc, hne]
  · intro hp hne
    simp [Interpreter.runInspectFuel, hc, hp, hne]

/-- C6 witness: at the sample interpreter a pre-step hook returning
`Stop` makes `run_inspect` return `Stop` with the interpreter unchanged. -/
theorem run_inspect_hook_stops_witness :
    Interpreter.runInspectFuel evalStop preStop postContinue 1 interp0 () =
      some (InstructionResult.Stop, interp0, ()) :=
  (run_inspect_hook_stops evalStop preStop postContinue 0 interp0 ()
    (by decide)).1 (by decide)

end Revm
